import Mathlib

/-!
Verification development for the firegorm library (a Firestore ORM layer).

The definitions below are a shallow embedding of the Go source:
hook registry and dispatch (hooks.go), the CRUD / query operations and
filter, update-field and struct validation (orm.go), and the model
registry metadata it consults (registry.go, model.go).

Go maps are modelled as association lists with first-match lookup and
replace-or-append assignment; Go errors as an inductive error type;
side effects (lock acquisition and release, hook invocation, document
writes) as an explicit event trace emitted in source order; the remote
document store as an oracle supplied to each operation.
-/

namespace Firegorm

/-- Association-list lookup, modelling the Go map read `v, ok := m[k]`. -/
def alookup {α β : Type} [DecidableEq α] : List (α × β) → α → Option β
  | [], _ => none
  | (k, v) :: rest, key => if k = key then some v else alookup rest key

/-- Association-list assignment, modelling the Go map write `m[k] = v`
(replaces the existing entry or appends a new one). -/
def aset {α β : Type} [DecidableEq α] : List (α × β) → α → β → List (α × β)
  | [], key, v => [(key, v)]
  | (k, w) :: rest, key, v =>
      if k = key then (key, v) :: rest else (k, w) :: aset rest key v

/-- The six hook events of hooks.go. -/
inductive HookType where
  | pre_create
  | post_create
  | pre_update
  | post_update
  | pre_delete
  | post_delete
  deriving DecidableEq, Repr

/-- Calendar dates, modelling the Go time.Time values produced by
time.Parse with the layout 2006-01-02. -/
structure Date where
  year : Nat
  month : Nat
  day : Nat
  deriving DecidableEq, Repr

/-- Scalar element of a slice value. The source never inspects the
elements of a slice filter value (it is passed through unchanged), so
slice elements are modelled as scalars. -/
inductive Prim where
  | pnil
  | pstr (s : String)
  | pbool (b : Bool)
  | pint (n : Int)
  | ptime (d : Date)
  deriving DecidableEq, Repr

/-- Dynamic values carried in filter maps and update maps, modelling the
Go interface values the source manipulates. -/
inductive Value where
  | vnil
  | str (s : String)
  | boolV (b : Bool)
  | intV (n : Int)
  | timeV (d : Date)
  | serverTimestamp
  | listV (elems : List Prim)
  deriving DecidableEq, Repr

/-- Go error values produced by the source: plain messages, the hook
wrapping performed by RunHooks, and fmt.Errorf wrapping of a cause. -/
inductive GoErr where
  | msg (s : String)
  | hookFailed (ht : HookType) (collection : String) (cause : GoErr)
  | wrapped (note : String) (cause : GoErr)
  deriving DecidableEq, Repr

deriving instance DecidableEq for Except

/-- One struct field as seen by ValidateStruct: its name, the value of
its validate tag, and whether its current value is the zero value. -/
structure FieldSpec where
  name : String
  validateTag : String
  isZero : Bool
  deriving DecidableEq, Repr

/-- The record argument of Create as seen through reflection: whether it
is a struct or pointer to struct (checked by ValidateStruct), whether it
is a pointer to a struct (checked again by Create), and its fields. -/
structure RecordData where
  isStructLike : Bool
  isPtrToStruct : Bool
  fields : List FieldSpec
  deriving DecidableEq, Repr

/-- The opaque payload handed to hook functions: the record being
created, the update map, or the identifier being deleted. -/
inductive Payload where
  | record (d : RecordData)
  | upd (m : List (String × Value))
  | docId (s : String)
  deriving DecidableEq, Repr

/-- Observable side effects, in source order: read-lock acquisition and
release, invocation of one hook function, and the two store writes. -/
inductive Event where
  | rlock
  | runlock
  | hookCall (ht : HookType) (idx : Nat) (p : Payload)
  | storeSet (collection docId : String)
  | storeUpdate (collection docId : String) (updates : List (String × Value))
  deriving DecidableEq, Repr

/-- The HookRegistry state of hooks.go: nested hook map, the global
master switch, the per-event switches and the per-scope switches. -/
structure HookRegistry where
  hooks : List (String × List (HookType × List (Payload → Option GoErr)))
  enabledAll : Bool
  enabledTypes : List (HookType × Bool)
  enabledScopes : List (String × List (HookType × Bool))

/-- NewHookRegistry: empty maps, master switch on. -/
def newHookRegistry : HookRegistry :=
  ⟨[], true, [], []⟩

/-- RegisterHook from hooks.go: append fn under (collection, ht), set
the scope switch to true, and set the per-type switch to true only when
it has no existing entry. -/
def registerHook (r : HookRegistry) (collection : String) (ht : HookType)
    (fn : Payload → Option GoErr) : HookRegistry :=
  let collHooks := (alookup r.hooks collection).getD []
  let fns := (alookup collHooks ht).getD []
  let hooks2 := aset r.hooks collection (aset collHooks ht (fns ++ [fn]))
  let scope := (alookup r.enabledScopes collection).getD []
  let scopes2 := aset r.enabledScopes collection (aset scope ht true)
  let types2 :=
    match alookup r.enabledTypes ht with
    | some _ => r.enabledTypes
    | none => aset r.enabledTypes ht true
  ⟨hooks2, r.enabledAll, types2, scopes2⟩

/-- EnableAll from hooks.go. -/
def enableAll (r : HookRegistry) (flag : Bool) : HookRegistry :=
  ⟨r.hooks, flag, r.enabledTypes, r.enabledScopes⟩

/-- EnableType from hooks.go. -/
def enableType (r : HookRegistry) (ht : HookType) (flag : Bool) : HookRegistry :=
  ⟨r.hooks, r.enabledAll, aset r.enabledTypes ht flag, r.enabledScopes⟩

/-- EnableScope from hooks.go: ensure the scope map exists, then set. -/
def enableScope (r : HookRegistry) (collection : String) (ht : HookType)
    (flag : Bool) : HookRegistry :=
  let scope := (alookup r.enabledScopes collection).getD []
  ⟨r.hooks, r.enabledAll, r.enabledTypes,
    aset r.enabledScopes collection (aset scope ht flag)⟩

/-- The slice grab `r.hooks[collection][ht]` (missing maps read as nil). -/
def hooksFor (r : HookRegistry) (collection : String) (ht : HookType) :
    List (Payload → Option GoErr) :=
  (alookup ((alookup r.hooks collection).getD []) ht).getD []

/-- The invocation loop of RunHooks: call each function in order on the
shared payload, stopping at the first failure, which is wrapped with the
event and collection identity. The trace records each invocation with
its index (the start index `i` threads the position). -/
def runFns (ht : HookType) (collection : String) (p : Payload) :
    List (Payload → Option GoErr) → Nat → List Event × Option GoErr
  | [], _ => ([], none)
  | fn :: rest, i =>
      match fn p with
      | some e => ([Event.hookCall ht i p], some (GoErr.hookFailed ht collection e))
      | none =>
          let r := runFns ht collection p rest (i + 1)
          (Event.hookCall ht i p :: r.1, r.2)

/-- RunHooks from hooks.go. The read lock is acquired on entry and its
release is deferred to function return, so every emitted trace starts
with rlock and ends with runlock. The three switch checks mirror the
source: master switch, per-type map (absent or false means off), scope
map (absent collection, or absent/false event entry, means off). -/
def runHooks (r : HookRegistry) (collection : String) (ht : HookType)
    (p : Payload) : List Event × Option GoErr :=
  if !r.enabledAll then ([Event.rlock, Event.runlock], none)
  else
    match alookup r.enabledTypes ht with
    | none => ([Event.rlock, Event.runlock], none)
    | some flag =>
        if !flag then ([Event.rlock, Event.runlock], none)
        else
          match alookup r.enabledScopes collection with
          | none => ([Event.rlock, Event.runlock], none)
          | some scope =>
              if !((alookup scope ht).getD false) then
                ([Event.rlock, Event.runlock], none)
              else
                let res := runFns ht collection p (hooksFor r collection ht) 0
                (Event.rlock :: res.1 ++ [Event.runlock], res.2)

/-- Derived switch resolution: all three switches on (per-type and scope
entries default to off when absent), for stating the gating claims. -/
def switchesOn (r : HookRegistry) (collection : String) (ht : HookType) : Bool :=
  r.enabledAll
    && ((alookup r.enabledTypes ht).getD false)
    && (match alookup r.enabledScopes collection with
        | none => false
        | some scope => (alookup scope ht).getD false)

/-- Derived reading of one scope switch entry. -/
def scopeLookup (r : HookRegistry) (collection : String) (ht : HookType) :
    Option Bool :=
  alookup ((alookup r.enabledScopes collection).getD []) ht

/-- Index and error of the first hook function that fails on payload p. -/
def firstFail (p : Payload) : List (Payload → Option GoErr) → Option (Nat × GoErr)
  | [] => none
  | fn :: rest =>
      match fn p with
      | some e => some (0, e)
      | none => (firstFail p rest).map (fun q => (q.1 + 1, q.2))

/-- Whether an event is the invocation of a hook function. -/
def isHookCall : Event → Bool
  | Event.hookCall _ _ _ => true
  | _ => false

/-- Whether an event is a document-store write. -/
def isStoreWrite : Event → Bool
  | Event.storeSet _ _ => true
  | Event.storeUpdate _ _ _ => true
  | _ => false

/-- Every hook invocation in the trace happens while the lock depth is
positive (scanning left to right, rlock increments, runlock decrements). -/
def callsUnderLock : List Event → Nat → Bool
  | [], _ => true
  | Event.rlock :: rest, d => callsUnderLock rest (d + 1)
  | Event.runlock :: rest, d => callsUnderLock rest (d - 1)
  | Event.hookCall _ _ _ :: rest, d => decide (0 < d) && callsUnderLock rest d
  | _ :: rest, d => callsUnderLock rest d

/-- Every hook invocation in the trace happens while no lock is held. -/
def callsOutsideLock : List Event → Nat → Bool
  | [], _ => true
  | Event.rlock :: rest, d => callsOutsideLock rest (d + 1)
  | Event.runlock :: rest, d => callsOutsideLock rest (d - 1)
  | Event.hookCall _ _ _ :: rest, d => decide (d = 0) && callsOutsideLock rest d
  | _ :: rest, d => callsOutsideLock rest d

/-- The BaseModel fields the operations consult (model.go). -/
structure BaseModel where
  id : String
  collectionName : String
  modelName : String
  deriving DecidableEq, Repr

/-- EnsureCollection from model.go. -/
def ensureCollection (b : BaseModel) : Option GoErr :=
  if b.collectionName = "" then
    some (GoErr.msg ("collection name not set; ensure the model is properly initialized"))
  else none

/-- The field loop of ValidateStruct: error on the first field whose
validate tag is required and whose value is the zero value. -/
def firstRequiredZero : List FieldSpec → Option GoErr
  | [] => none
  | f :: rest =>
      if f.validateTag = "required" ∧ f.isZero = true then
        some (GoErr.msg ("field " ++ f.name ++ " is required"))
      else firstRequiredZero rest

/-- ValidateStruct from orm.go: reject non-struct data, then scan the
fields for a required field holding its zero value. -/
def validateStruct (d : RecordData) : Option GoErr :=
  if d.isStructLike = false then
    some (GoErr.msg ("data must be a struct or a pointer to a struct"))
  else firstRequiredZero d.fields

/-- Registered model metadata (registry.go): the tag-to-field map and
each field name mapped to the value of its validate tag. A field absent
from fieldValidateTag reads as the empty tag, mirroring the zero
StructField returned by FieldByName for an unknown name. -/
structure ModelInfo where
  collectionName : String
  tagToFieldMap : List (String × String)
  fieldValidateTag : List (String × String)
  deriving DecidableEq, Repr

/-- GetModelInfo from registry.go, over the model registry map. -/
def getModelInfo (modelReg : List (String × ModelInfo)) (modelName : String) :
    Except GoErr ModelInfo :=
  match alookup modelReg modelName with
  | none => Except.error (GoErr.msg ("model " ++ modelName ++ " is not registered"))
  | some info => Except.ok info

/-- The protected BaseModel field set of validateUpdateFields. -/
def protectedKeys (k : String) : Bool :=
  k == "deleted" || k == "deleted_at" || k == "updated_at"

/-- Read an optional string, absent meaning the empty string. -/
def orEmpty : Option String → String
  | none => ""
  | some s => s

/-- The per-entry loop of validateUpdateFields: protected keys are
skipped, other keys must appear in the tag-to-field map, and a resolved
field tagged required must not hold nil or the empty string. -/
def validateLoop (info : ModelInfo) (collectionName : String) :
    List (String × Value) → Option GoErr
  | [] => none
  | (updateKey, value) :: rest =>
      if protectedKeys updateKey then validateLoop info collectionName rest
      else
        match alookup info.tagToFieldMap updateKey with
        | none =>
            some (GoErr.msg ("field " ++ updateKey
              ++ " does not exist in the model for collection " ++ collectionName))
        | some fieldName =>
            if orEmpty (alookup info.fieldValidateTag fieldName) = "required"
                ∧ (value = Value.vnil ∨ value = Value.str "") then
              some (GoErr.msg ("field " ++ updateKey
                ++ " is required and cannot be empty or nil"))
            else validateLoop info collectionName rest

/-- validateUpdateFields from orm.go: the registry lookup happens first,
unconditionally, and only then is each update entry checked. -/
def validateUpdateFields (modelReg : List (String × ModelInfo))
    (updates : List (String × Value)) (b : BaseModel) : Option GoErr :=
  match getModelInfo modelReg (b.collectionName ++ "." ++ b.modelName) with
  | Except.error _ =>
      some (GoErr.msg ("collection " ++ b.collectionName ++ " is not registered"))
  | Except.ok info => validateLoop info b.collectionName updates

/-- Derived single-entry checker used to state the update-validation
claims: the violation an entry produces, if any. -/
def entryViolation (info : ModelInfo) (collectionName updateKey : String)
    (value : Value) : Option GoErr :=
  if protectedKeys updateKey then none
  else
    match alookup info.tagToFieldMap updateKey with
    | none =>
        some (GoErr.msg ("field " ++ updateKey
          ++ " does not exist in the model for collection " ++ collectionName))
    | some fieldName =>
        if orEmpty (alookup info.fieldValidateTag fieldName) = "required"
            ∧ (value = Value.vnil ∨ value = Value.str "") then
          some (GoErr.msg ("field " ++ updateKey
            ++ " is required and cannot be empty or nil"))
        else none

/-- True in a leap year of the Gregorian calendar. -/
def isLeapYear (y : Nat) : Bool :=
  (y % 4 == 0 && y % 100 != 0) || y % 400 == 0

/-- Number of days of month m in year y. -/
def daysInMonth (y m : Nat) : Nat :=
  if m = 2 then (if isLeapYear y then 29 else 28)
  else if m = 4 ∨ m = 6 ∨ m = 9 ∨ m = 11 then 30
  else 31

/-- Go time.Parse with layout 2006-01-02: exactly four year digits, a
dash, two month digits, a dash, two day digits, nothing more, with the
month and day ranges validated (leap years included). -/
def parseDate (s : String) : Option Date :=
  match s.toList with
  | [y1, y2, y3, y4, h1, m1, m2, h2, d1, d2] =>
      if y1.isDigit ∧ y2.isDigit ∧ y3.isDigit ∧ y4.isDigit ∧ h1 = '-'
          ∧ m1.isDigit ∧ m2.isDigit ∧ h2 = '-' ∧ d1.isDigit ∧ d2.isDigit then
        let y := (y1.toNat - 48) * 1000 + (y2.toNat - 48) * 100
          + (y3.toNat - 48) * 10 + (y4.toNat - 48)
        let m := (m1.toNat - 48) * 10 + (m2.toNat - 48)
        let d := (d1.toNat - 48) * 10 + (d2.toNat - 48)
        if 1 ≤ m ∧ m ≤ 12 ∧ 1 ≤ d ∧ d ≤ daysInMonth y m then
          some ⟨y, m, d⟩
        else none
      else none
  | _ => none

/-- Split a character list on the two-underscore separator, scanning
left to right with non-overlapping matches, as strings.Split does. -/
def splitSep : List Char → List (List Char)
  | [] => [[]]
  | '_' :: '_' :: rest => [] :: splitSep rest
  | c :: rest =>
      match splitSep rest with
      | [] => [[c]]
      | p :: ps => (c :: p) :: ps

/-- Rejoin the parts after the first one with the separator, recovering
the remainder component of strings.SplitN(key, sep, 2). -/
def joinSep : List (List Char) → List Char
  | [] => []
  | [p] => p
  | p :: ps => p ++ '_' :: '_' :: joinSep ps

/-- The parts of strings.Split of the key on the filter separator. -/
def sepSplit (key : String) : List String :=
  (splitSep key.toList).map (fun cs => String.mk cs)

/-- strings.Contains(key, sep): splitting produced more than one part. -/
def hasSep (key : String) : Bool :=
  (sepSplit key).length != 1

/-- strings.SplitN(key, sep, 2): the part before the first separator and
the remainder of the key after it. -/
def splitFirst (key : String) : String × String :=
  match splitSep key.toList with
  | [] => (key, "")
  | [p] => (String.mk p, "")
  | p :: ps => (String.mk p, String.mk (joinSep ps))

/-- The suffix-to-operator switch of parseFilter. -/
def suffixOp (sfx : String) : String :=
  if sfx = "gt" then ">"
  else if sfx = "gte" then ">="
  else if sfx = "lt" then "<"
  else if sfx = "lte" then "<="
  else "=="

/-- reflect.ValueOf(value).Kind() == reflect.Slice. -/
def isListValue : Value → Bool
  | Value.listV _ => true
  | _ => false

/-- parseFilter from orm.go. Keys without the separator: slices map to
the in operator unchanged, strings get a lenient date-parse attempt, and
everything else passes through under equality. Keys with the separator:
the suffix picks the operator and a string value must parse as a date. -/
def parseFilter (key : String) (value : Value) :
    Except GoErr (String × String × Value) :=
  if hasSep key = false then
    if isListValue value then Except.ok (key, "in", value)
    else
      match value with
      | Value.str dateStr =>
          match parseDate dateStr with
          | some d => Except.ok (key, "==", Value.timeV d)
          | none => Except.ok (key, "==", value)
      | _ => Except.ok (key, "==", value)
  else
    let parts := splitFirst key
    let op := suffixOp parts.2
    match value with
    | Value.str dateStr =>
        match parseDate dateStr with
        | some d => Except.ok (parts.1, op, Value.timeV d)
        | none => Except.error (GoErr.msg ("invalid date format for " ++ key))
    | _ => Except.ok (parts.1, op, value)

/-- A document of the store, with its identifier and whether mapping its
data into a model value (DataTo) fails. -/
structure Doc where
  id : String
  dataToErr : Option GoErr
  deriving DecidableEq, Repr

/-- A Firestore query as the source builds it: target collection, the
accumulated Where predicates, the sort, the resume-after document and
the limit. -/
structure Query where
  collection : String
  wheres : List (String × String × Value)
  sortBy : Option (String × Bool)
  startAfterDoc : Option Doc
  qlimit : Option Int
  deriving DecidableEq, Repr

/-- The query on a collection before any predicate is attached. -/
def emptyQuery (collection : String) : Query :=
  ⟨collection, [], none, none, none⟩

/-- query.Where(field, op, value). -/
def Query.whereF (q : Query) (field op : String) (v : Value) : Query :=
  { q with wheres := q.wheres ++ [(field, op, v)] }

/-- applyOperatorFilters from orm.go: fold parseFilter over the filter
entries, attaching each compiled predicate, stopping at the first error. -/
def applyOperatorFilters (query : Query) :
    List (String × Value) → Except GoErr Query
  | [] => Except.ok query
  | (key, value) :: rest =>
      match parseFilter key value with
      | Except.error e => Except.error e
      | Except.ok (field, op, newValue) =>
          applyOperatorFilters (Query.whereF query field op newValue) rest

/-- One step of a document iterator: the next document, or a failure of
the iteration itself. The list ends where the iterator reports Done. -/
inductive IterStep where
  | nextDoc (d : Doc)
  | iterFail (e : GoErr)
  deriving DecidableEq, Repr

/-- The external document store as an oracle: outcomes of Set and Update
writes, document fetch by identifier, and query execution. -/
structure Store where
  setRes : String → String → Option GoErr
  updateRes : String → String → List (String × Value) → Option GoErr
  getDoc : String → String → Except GoErr Doc
  runQuery : Query → List IterStep

/-- The materialization loop of List: append each successfully mapped
document to the accumulator (the caller-visible slice), returning the
accumulator as already grown when a step fails. -/
def listLoop : List IterStep → List Doc → List Doc × Option GoErr
  | [], acc => (acc, none)
  | IterStep.iterFail e :: _, acc =>
      (acc, some (GoErr.wrapped ("failed to iterate documents") e))
  | IterStep.nextDoc d :: rest, acc =>
      match d.dataToErr with
      | some e => (acc, some (GoErr.wrapped ("failed to map document data") e))
      | none => listLoop rest (acc ++ [d])

/-- The documents a step list yields before its first failure. -/
def processedDocs : List IterStep → List Doc
  | [] => []
  | IterStep.iterFail _ :: _ => []
  | IterStep.nextDoc d :: rest =>
      match d.dataToErr with
      | some _ => []
      | none => d :: processedDocs rest

/-- Identifier of the last element of the results slice. -/
def lastDocId (l : List Doc) : String :=
  match l.getLast? with
  | some d => d.id
  | none => ""

/-- What a List call leaves behind: the caller-visible results slice,
the next-page token, the error, and the query that was handed to the
store (none when an earlier step failed before the query ran). -/
structure ListOut where
  results : List Doc
  token : String
  err : Option GoErr
  sentQuery : Option Query
  deriving DecidableEq, Repr

/-- The sort block of List: an empty sortField leaves the query alone,
otherwise sortOrder must be exactly asc or desc. -/
def sortedQuery (q1 : Query) (sortField sortOrder : String) :
    Except GoErr Query :=
  if sortField = "" then Except.ok q1
  else if sortOrder = "asc" then
    Except.ok { q1 with sortBy := some (sortField, true) }
  else if sortOrder = "desc" then
    Except.ok { q1 with sortBy := some (sortField, false) }
  else
    Except.error (GoErr.msg ("invalid sortOrder: " ++ sortOrder
      ++ ". Must be asc or desc"))

/-- The startAfter block of List: a non-empty token is resolved by
fetching the document it names; fetch failure is a hard error. -/
def cursoredQuery (st : Store) (collection : String) (q2 : Query)
    (startAfter : String) : Except GoErr Query :=
  if startAfter = "" then Except.ok q2
  else
    match st.getDoc collection startAfter with
    | Except.error e =>
        Except.error (GoErr.wrapped ("invalid startAfter token") e)
    | Except.ok doc => Except.ok { q2 with startAfterDoc := some doc }

/-- List from orm.go: ensure the collection, compile filters onto the
implicit deleted == false predicate, validate the sort order, resolve
the startAfter token through the store, cap the query when the limit is
positive, materialize, and derive the next-page token exactly when a
positive limit was given and the slice length equals it. `init` is the
content of the caller-supplied results slice on entry. -/
def list (st : Store) (b : BaseModel) (filters : List (String × Value))
    (limit : Int) (startAfter sortField sortOrder : String)
    (init : List Doc) : ListOut :=
  match ensureCollection b with
  | some e => ⟨init, "", some e, none⟩
  | none =>
    let q0 := Query.whereF (emptyQuery b.collectionName) ("deleted") ("==")
      (Value.boolV false)
    match applyOperatorFilters q0 filters with
    | Except.error e => ⟨init, "", some e, none⟩
    | Except.ok q1 =>
      match sortedQuery q1 sortField sortOrder with
      | Except.error e => ⟨init, "", some e, none⟩
      | Except.ok q2 =>
        match cursoredQuery st b.collectionName q2 startAfter with
        | Except.error e => ⟨init, "", some e, none⟩
        | Except.ok q3 =>
          let q4 := if 0 < limit then { q3 with qlimit := some limit } else q3
          let looped := listLoop (st.runQuery q4) init
          match looped.2 with
          | some e => ⟨looped.1, "", some e, some q4⟩
          | none =>
            let token :=
              if 0 < limit ∧ (looped.1.length : Int) = limit then
                lastDocId looped.1
              else ""
            ⟨looped.1, token, none, some q4⟩

/-- What a Count call returns, along with the query handed to the store. -/
structure CountOut where
  count : Nat
  err : Option GoErr
  sentQuery : Option Query
  deriving DecidableEq, Repr

/-- The counting loop of Count: zero together with the error when a step
fails, otherwise the number of documents. -/
def countLoop : List IterStep → Nat → Nat × Option GoErr
  | [], n => (n, none)
  | IterStep.iterFail e :: _, _ => (0, some e)
  | IterStep.nextDoc _ :: rest, n => countLoop rest (n + 1)

/-- Count from orm.go: ensure the collection, compile filters onto the
implicit deleted == false predicate, and scan the full result stream. -/
def count (st : Store) (b : BaseModel) (filters : List (String × Value)) :
    CountOut :=
  match ensureCollection b with
  | some e => ⟨0, some e, none⟩
  | none =>
    let q0 := Query.whereF (emptyQuery b.collectionName) ("deleted") ("==")
      (Value.boolV false)
    match applyOperatorFilters q0 filters with
    | Except.error e => ⟨0, some e, none⟩
    | Except.ok q1 =>
      let looped := countLoop (st.runQuery q1) 0
      ⟨looped.1, looped.2, some q1⟩

/-- Trace and error of one mutation operation. -/
structure OpResult where
  trace : List Event
  err : Option GoErr
  deriving DecidableEq, Repr

/-- updatesToFirestoreUpdates from utils.go: each map entry becomes one
firestore.Update with the key as path, represented here by the entry
list itself. -/
def updatesToFirestoreUpdates (updates : List (String × Value)) :
    List (String × Value) :=
  updates

/-- Create from orm.go: ensure the collection, validate the record,
check it is a pointer to a struct, run the pre_create hooks (aborting on
their failure), perform the Set write, run the post_create hooks with
their error discarded, and return the outcome of the write. The
identifier assignment and timestamp writes on the record and the model
do not influence control flow and are not traced. -/
def create (hr : HookRegistry) (st : Store) (b : BaseModel) (uuid : String)
    (data : RecordData) : OpResult :=
  match ensureCollection b with
  | some e => ⟨[], some e⟩
  | none =>
    match validateStruct data with
    | some e => ⟨[], some e⟩
    | none =>
      if data.isPtrToStruct = false then
        ⟨[], some (GoErr.msg ("data must be a pointer to a struct"))⟩
      else
        let preRun := runHooks hr b.collectionName HookType.pre_create
          (Payload.record data)
        match preRun.2 with
        | some e => ⟨preRun.1, some e⟩
        | none =>
          let setErr := st.setRes b.collectionName uuid
          let postRun := runHooks hr b.collectionName HookType.post_create
            (Payload.record data)
          ⟨preRun.1 ++ [Event.storeSet b.collectionName uuid] ++ postRun.1,
            setErr⟩

/-- Update from orm.go: ensure the collection, validate the update map,
insert the updated_at server-timestamp sentinel into the caller-supplied
map, run the pre_update hooks on that same map (aborting on failure),
perform the Update write, run the post_update hooks with their error
discarded, and return the outcome of the write. The second component is
the content of the caller-supplied map when the call returns (the Go map
is mutated in place). -/
def update (hr : HookRegistry) (modelReg : List (String × ModelInfo))
    (st : Store) (b : BaseModel) (docId : String)
    (updates : List (String × Value)) : OpResult × List (String × Value) :=
  match ensureCollection b with
  | some e => (⟨[], some e⟩, updates)
  | none =>
    match validateUpdateFields modelReg updates b with
    | some e => (⟨[], some e⟩, updates)
    | none =>
      let updates2 := aset updates ("updated_at") Value.serverTimestamp
      let preRun := runHooks hr b.collectionName HookType.pre_update
        (Payload.upd updates2)
      match preRun.2 with
      | some e => (⟨preRun.1, some e⟩, updates2)
      | none =>
        let updErr := st.updateRes b.collectionName docId
          (updatesToFirestoreUpdates updates2)
        let postRun := runHooks hr b.collectionName HookType.post_update
          (Payload.upd updates2)
        (⟨preRun.1
            ++ [Event.storeUpdate b.collectionName docId
                  (updatesToFirestoreUpdates updates2)]
            ++ postRun.1,
          updErr⟩, updates2)

/-- The soft-delete update map Delete builds. -/
def deleteUpdates (now : Date) : List (String × Value) :=
  [("deleted", Value.boolV true), ("deleted_at", Value.timeV now),
    ("updated_at", Value.serverTimestamp)]

/-- Delete from orm.go: run the pre_delete hooks first (before any
collection check), build the soft-delete map, delegate to Update, and
run the post_delete hooks only when that update succeeded, discarding
their error. -/
def delete (hr : HookRegistry) (modelReg : List (String × ModelInfo))
    (st : Store) (b : BaseModel) (docId : String) (now : Date) : OpResult :=
  let preRun := runHooks hr b.collectionName HookType.pre_delete
    (Payload.docId docId)
  match preRun.2 with
  | some e => ⟨preRun.1, some e⟩
  | none =>
    let updRes := update hr modelReg st b docId (deleteUpdates now)
    match updRes.1.err with
    | none =>
        let postRun := runHooks hr b.collectionName HookType.post_delete
          (Payload.docId docId)
        ⟨preRun.1 ++ updRes.1.trace ++ postRun.1, none⟩
    | some e => ⟨preRun.1 ++ updRes.1.trace, some e⟩

/-- The trace of n consecutive hook invocations starting at index i. -/
def callTrace (ht : HookType) (p : Payload) (i n : Nat) : List Event :=
  (List.range n).map (fun k => Event.hookCall ht (i + k) p)

theorem alookup_aset_self {α β : Type} [DecidableEq α] (l : List (α × β))
    (k : α) (v : β) : alookup (aset l k v) k = some v := by
  induction l with
  | nil => simp [aset, alookup]
  | cons hd t ih =>
      obtain ⟨k1, v1⟩ := hd
      by_cases hk : k1 = k
      · simp [aset, hk, alookup]
      · simp [aset, hk, alookup, ih]

theorem alookup_aset_other {α β : Type} [DecidableEq α] (l : List (α × β))
    (k k2 : α) (v : β) (h : k2 ≠ k) :
    alookup (aset l k v) k2 = alookup l k2 := by
  induction l with
  | nil => simp [aset, alookup, Ne.symm h]
  | cons hd t ih =>
      obtain ⟨k1, v1⟩ := hd
      by_cases hk : k1 = k
      · subst hk
        simp [aset, alookup, Ne.symm h]
      · simp [aset, hk, alookup, ih]

theorem callTrace_zero (ht : HookType) (p : Payload) (i : Nat) :
    callTrace ht p i 0 = [] := by
  simp [callTrace]

theorem callTrace_succ (ht : HookType) (p : Payload) (i n : Nat) :
    callTrace ht p i (n + 1) = Event.hookCall ht i p :: callTrace ht p (i + 1) n := by
  simp only [callTrace, List.range_succ_eq_map, List.map_cons, List.map_map]
  congr 1
  apply List.map_congr_left
  intro a _
  show Event.hookCall ht (i + (a + 1)) p = Event.hookCall ht (i + 1 + a) p
  congr 1
  omega

theorem runFns_eq (ht : HookType) (collection : String) (p : Payload) :
    ∀ (fns : List (Payload → Option GoErr)) (i : Nat),
      runFns ht collection p fns i =
        match firstFail p fns with
        | none => (callTrace ht p i fns.length, none)
        | some q => (callTrace ht p i (q.1 + 1),
            some (GoErr.hookFailed ht collection q.2)) := by
  intro fns
  induction fns with
  | nil =>
      intro i
      simp [runFns, firstFail, callTrace_zero]
  | cons fn rest ih =>
      intro i
      cases hfn : fn p with
      | some e =>
          simp [runFns, firstFail, hfn, callTrace_succ, callTrace_zero]
      | none =>
          cases hff : firstFail p rest with
          | none =>
              simp [runFns, firstFail, hfn, hff, ih (i + 1), callTrace_succ]
          | some q =>
              simp [runFns, firstFail, hfn, hff, ih (i + 1), callTrace_succ]

theorem runHooks_eq (r : HookRegistry) (collection : String) (ht : HookType)
    (p : Payload) :
    runHooks r collection ht p =
      if switchesOn r collection ht = true then
        (Event.rlock :: (runFns ht collection p (hooksFor r collection ht) 0).1
            ++ [Event.runlock],
         (runFns ht collection p (hooksFor r collection ht) 0).2)
      else ([Event.rlock, Event.runlock], none) := by
  unfold runHooks switchesOn
  cases hA : r.enabledAll with
  | false => simp
  | true =>
      cases hT : alookup r.enabledTypes ht with
      | none => simp
      | some flag =>
          cases flag with
          | false => simp
          | true =>
              cases hS : alookup r.enabledScopes collection with
              | none => simp
              | some scope =>
                  cases hB : (alookup scope ht).getD false with
                  | false => simp [hB]
                  | true => simp [hB]

theorem runFns_trace_calls (ht : HookType) (collection : String) (p : Payload) :
    ∀ (fns : List (Payload → Option GoErr)) (i : Nat) (ev : Event),
      ev ∈ (runFns ht collection p fns i).1 → isHookCall ev = true := by
  intro fns
  induction fns with
  | nil =>
      intro i ev hev
      simp [runFns] at hev
  | cons fn rest ih =>
      intro i ev hev
      cases hfn : fn p with
      | some e =>
          simp [runFns, hfn] at hev
          simp [hev, isHookCall]
      | none =>
          simp [runFns, hfn] at hev
          cases hev with
          | inl h => simp [h, isHookCall]
          | inr h => exact ih (i + 1) ev h

theorem runHooks_trace_calls (r : HookRegistry) (collection : String)
    (ht : HookType) (p : Payload) (ev : Event)
    (hev : ev ∈ (runHooks r collection ht p).1) :
    ev = Event.rlock ∨ ev = Event.runlock ∨ isHookCall ev = true := by
  rw [runHooks_eq] at hev
  by_cases hs : switchesOn r collection ht = true
  · simp [hs] at hev
    rcases hev with h | h | h
    · exact Or.inl h
    · exact Or.inr (Or.inr (runFns_trace_calls ht collection p _ 0 ev h))
    · exact Or.inr (Or.inl h)
  · simp [hs] at hev
    rcases hev with h | h
    · exact Or.inl h
    · exact Or.inr (Or.inl h)

theorem runHooks_no_store_writes (r : HookRegistry) (collection : String)
    (ht : HookType) (p : Payload) (ev : Event)
    (hev : ev ∈ (runHooks r collection ht p).1) : isStoreWrite ev = false := by
  rcases runHooks_trace_calls r collection ht p ev hev with h | h | h
  · simp [h, isStoreWrite]
  · simp [h, isStoreWrite]
  · cases ev with
    | hookCall a b c => simp [isStoreWrite]
    | rlock => simp [isStoreWrite]
    | runlock => simp [isStoreWrite]
    | storeSet a b => simp [isHookCall] at h
    | storeUpdate a b c => simp [isHookCall] at h

/-- C1: RunHooks is a no-op returning success when the master switch is
off or the per-event or per-scope switch is off or unset; otherwise it
invokes every hook registered for the (collection, event) scope in
registration order, and the first hook failure aborts the sequence with
the error wrapped with the event and collection identity. -/
theorem C1_runHooks_gating (r : HookRegistry) (collection : String)
    (ht : HookType) (p : Payload) :
    (switchesOn r collection ht = false →
      runHooks r collection ht p = ([Event.rlock, Event.runlock], none)) ∧
    (switchesOn r collection ht = true →
      (firstFail p (hooksFor r collection ht) = none →
        runHooks r collection ht p =
          (Event.rlock :: callTrace ht p 0 (hooksFor r collection ht).length
              ++ [Event.runlock], none)) ∧
      (∀ j e, firstFail p (hooksFor r collection ht) = some (j, e) →
        runHooks r collection ht p =
          (Event.rlock :: callTrace ht p 0 (j + 1) ++ [Event.runlock],
           some (GoErr.hookFailed ht collection e)))) := by
  refine ⟨fun hs => ?_, fun hs => ⟨fun hff => ?_, fun j e hff => ?_⟩⟩
  · rw [runHooks_eq]
    simp [hs]
  · rw [runHooks_eq, runFns_eq]
    simp [hs, hff]
  · rw [runHooks_eq, runFns_eq]
    simp [hs, hff]

/-- A hook function that always succeeds. -/
def hookOk : Payload → Option GoErr :=
  fun _ => none

/-- A hook function that always fails. -/
def hookBoom : Payload → Option GoErr :=
  fun _ => some (GoErr.msg ("boom"))

/-- Registry with one succeeding then one failing pre_create hook. -/
def regW : HookRegistry :=
  registerHook
    (registerHook newHookRegistry ("tasks") HookType.pre_create hookOk)
    ("tasks") HookType.pre_create hookBoom

/-- A concrete payload. -/
def payloadW : Payload :=
  Payload.docId ("t1")

/-- Witness for C1: on a registry with a succeeding then a failing
pre_create hook, both hooks run in order and the second aborts with the
wrapped error. -/
theorem C1_runHooks_gating_witness :
    runHooks regW ("tasks") HookType.pre_create payloadW =
      (Event.rlock :: callTrace HookType.pre_create payloadW 0 2
          ++ [Event.runlock],
       some (GoErr.hookFailed HookType.pre_create ("tasks")
          (GoErr.msg ("boom")))) :=
  ((C1_runHooks_gating regW ("tasks") HookType.pre_create payloadW).2
      (by decide)).2 1 (GoErr.msg ("boom")) (by decide)

/-- Registry with a single succeeding pre_create hook. -/
def regW9 : HookRegistry :=
  registerHook newHookRegistry ("tasks") HookType.pre_create hookOk

/-- C9 counterexample: in RunHooks the hook invocation occurs between
the read-lock acquisition and the deferred release, not outside the
lock: the trace of a run with one registered hook contains its
invocation strictly inside the lock-held region, so the claim that hook
functions execute outside any lock fails on this input. -/
theorem C9_counterexample :
    (runHooks regW9 ("tasks") HookType.pre_create payloadW).1 =
        [Event.rlock, Event.hookCall HookType.pre_create 0 payloadW,
          Event.runlock]
      ∧ callsOutsideLock
          (runHooks regW9 ("tasks") HookType.pre_create payloadW).1 0 = false := by
  decide

theorem callsUnderLock_append_calls :
    ∀ (tr rest : List Event) (d : Nat),
      (∀ ev ∈ tr, isHookCall ev = true) → 0 < d →
      callsUnderLock (tr ++ rest) d = callsUnderLock rest d := by
  intro tr
  induction tr with
  | nil => simp
  | cons ev t ih =>
      intro rest d hall hd
      have hev := hall ev (by simp)
      cases ev with
      | hookCall a b c =>
          simp only [List.cons_append, callsUnderLock]
          rw [decide_eq_true hd]
          simp only [Bool.true_and]
          exact ih rest d (fun e he => hall e (by simp [he])) hd
      | rlock => simp [isHookCall] at hev
      | runlock => simp [isHookCall] at hev
      | storeSet a b => simp [isHookCall] at hev
      | storeUpdate a b c => simp [isHookCall] at hev

/-- C9, amended: RunHooks acquires the shared lock on entry and releases
it only on return, so the whole execution, the invocation of the hook
functions included, happens while the lock is held: every hook call in
the trace sits at positive lock depth, and the trace begins with the
acquisition and ends with the release. -/
theorem C9_lock_discipline (r : HookRegistry) (collection : String)
    (ht : HookType) (p : Payload) :
    callsUnderLock (runHooks r collection ht p).1 0 = true ∧
    (runHooks r collection ht p).1.head? = some Event.rlock ∧
    (runHooks r collection ht p).1.getLast? = some Event.runlock := by
  rw [runHooks_eq]
  by_cases hs : switchesOn r collection ht = true
  · simp only [hs, if_pos rfl]
    refine ⟨?_, by simp, ?_⟩
    · show callsUnderLock
        (Event.rlock :: ((runFns ht collection p (hooksFor r collection ht) 0).1
          ++ [Event.runlock])) 0 = true
      simp only [callsUnderLock]
      rw [callsUnderLock_append_calls _ _ 1
        (fun ev hev => runFns_trace_calls ht collection p _ 0 ev hev)
        (by omega)]
      simp [callsUnderLock]
    · show (Event.rlock :: ((runFns ht collection p (hooksFor r collection ht) 0).1
          ++ [Event.runlock])).getLast? = some Event.runlock
      rw [← List.cons_append, List.getLast?_concat]
  · simp [hs, callsUnderLock]

/-- Registry where the (tasks, pre_create) scope switch was explicitly
turned off before a hook is registered in that scope. -/
def regC3 : HookRegistry :=
  registerHook (enableScope newHookRegistry ("tasks") HookType.pre_create false)
    ("tasks") HookType.pre_create hookOk

/-- C3 counterexample: registering a hook in a scope whose switch was
explicitly set to off turns the scope switch back on, so the claimed
first-registration-wins default for the scope switch fails: after the
registration the switch reads enabled, not the prior explicit off. -/
theorem C3_counterexample :
    scopeLookup regC3 ("tasks") HookType.pre_create = some true ∧
    ¬ scopeLookup regC3 ("tasks") HookType.pre_create = some false := by
  decide

/-- C3, amended: RegisterHook appends fn to the hook sequence of the
(collection, event) scope; it sets the per-scope switch to enabled
unconditionally, overwriting any prior explicit setting, while the
per-event switch is set to enabled only if it has no prior setting, so
an event switch previously set to off stays off but a scope switch
previously set to off is turned back on. The master switch is untouched. -/
theorem C3_register_defaults (r : HookRegistry) (collection : String)
    (ht : HookType) (fn : Payload → Option GoErr) :
    hooksFor (registerHook r collection ht fn) collection ht
        = hooksFor r collection ht ++ [fn] ∧
    scopeLookup (registerHook r collection ht fn) collection ht = some true ∧
    (∀ b0, alookup r.enabledTypes ht = some b0 →
      alookup (registerHook r collection ht fn).enabledTypes ht = some b0) ∧
    (alookup r.enabledTypes ht = none →
      alookup (registerHook r collection ht fn).enabledTypes ht = some true) ∧
    (registerHook r collection ht fn).enabledAll = r.enabledAll := by
  refine ⟨?_, ?_, ?_, ?_, ?_⟩
  · simp [registerHook, hooksFor, alookup_aset_self]
  · simp [registerHook, scopeLookup, alookup_aset_self]
  · intro b0 hb0
    simp [registerHook, hb0]
  · intro hb0
    simp [registerHook, hb0, alookup_aset_self]
  · simp [registerHook]

/-- Witness for C3 (amended): an event switch explicitly set to off
before registration still reads off afterwards. -/
theorem C3_register_defaults_witness :
    alookup (registerHook (enableType newHookRegistry HookType.pre_create false)
        ("tasks") HookType.pre_create hookOk).enabledTypes HookType.pre_create
      = some false :=
  ((C3_register_defaults (enableType newHookRegistry HookType.pre_create false)
      ("tasks") HookType.pre_create hookOk).2.2.1) false (by decide)

/-- Whether an event is the invocation of a hook of the given type. -/
def isCallOf (ht : HookType) : Event → Bool
  | Event.hookCall ht2 _ _ => ht2 == ht
  | _ => false

theorem callTrace_mem (ht : HookType) (p : Payload) (i n : Nat) (ev : Event)
    (hev : ev ∈ callTrace ht p i n) : ∃ k, ev = Event.hookCall ht k p := by
  simp only [callTrace, List.mem_map, List.mem_range] at hev
  obtain ⟨a, _, ha⟩ := hev
  exact ⟨i + a, ha.symm⟩

theorem runHooks_trace_shape (r : HookRegistry) (collection : String)
    (ht : HookType) (p : Payload) (ev : Event)
    (hev : ev ∈ (runHooks r collection ht p).1) :
    ev = Event.rlock ∨ ev = Event.runlock ∨
      ∃ k, ev = Event.hookCall ht k p := by
  rw [runHooks_eq] at hev
  by_cases hs : switchesOn r collection ht = true
  · rw [if_pos hs] at hev
    rcases List.mem_cons.mp hev with h | h
    · exact Or.inl h
    · rcases List.mem_append.mp h with h2 | h2
      · refine Or.inr (Or.inr ?_)
        rw [runFns_eq] at h2
        cases hff : firstFail p (hooksFor r collection ht) with
        | none =>
            rw [hff] at h2
            exact callTrace_mem _ _ _ _ _ h2
        | some q =>
            rw [hff] at h2
            exact callTrace_mem _ _ _ _ _ h2
      · exact Or.inr (Or.inl (List.mem_singleton.mp h2))
  · rw [if_neg hs] at hev
    rcases List.mem_cons.mp hev with h | h
    · exact Or.inl h
    · exact Or.inr (Or.inl (List.mem_singleton.mp h))

theorem runHooks_calls_of (r : HookRegistry) (collection : String)
    (ht ht2 : HookType) (p : Payload) (ev : Event)
    (hev : ev ∈ (runHooks r collection ht p).1) (hne : ht2 ≠ ht) :
    isCallOf ht2 ev = false := by
  rcases runHooks_trace_shape r collection ht p ev hev with h | h | ⟨k, h⟩
  · simp [h, isCallOf]
  · simp [h, isCallOf]
  · simp [h, isCallOf, Ne.symm hne]

/-- Events in any update trace are never post_delete (or pre_delete,
pre_create, post_create) hook invocations. -/
theorem update_calls_only (hr : HookRegistry)
    (modelReg : List (String × ModelInfo)) (st : Store) (b : BaseModel)
    (docId : String) (updates : List (String × Value)) (ht2 : HookType)
    (h1 : ht2 ≠ HookType.pre_update) (h2 : ht2 ≠ HookType.post_update) :
    ∀ ev ∈ (update hr modelReg st b docId updates).1.trace,
      isCallOf ht2 ev = false := by
  intro ev hev
  unfold update at hev
  cases hE : ensureCollection b with
  | some e => simp [hE] at hev
  | none =>
      cases hV : validateUpdateFields modelReg updates b with
      | some e => simp [hE, hV] at hev
      | none =>
          cases hP : (runHooks hr b.collectionName HookType.pre_update
              (Payload.upd (aset updates ("updated_at")
                Value.serverTimestamp))).2 with
          | some e =>
              simp only [hE, hV, hP] at hev
              exact runHooks_calls_of hr b.collectionName HookType.pre_update
                ht2 _ ev hev h1
          | none =>
              simp only [hE, hV, hP, List.mem_append, List.mem_singleton] at hev
              rcases hev with (h | h) | h
              · exact runHooks_calls_of hr b.collectionName HookType.pre_update
                  ht2 _ ev h h1
              · simp [h, isCallOf]
              · exact runHooks_calls_of hr b.collectionName HookType.post_update
                  ht2 _ ev h h2

/-- C2: for Create, Update and Delete, a failing pre-event hook run
makes the operation return that error and the store mutation (the
document Set or Update) is never invoked. -/
theorem C2_pre_hooks_gate_mutations (hr : HookRegistry)
    (modelReg : List (String × ModelInfo)) (st : Store) (b : BaseModel)
    (uuid docId : String) (data : RecordData)
    (updates : List (String × Value)) (now : Date) :
    (∀ e, ensureCollection b = none → validateStruct data = none →
      data.isPtrToStruct = true →
      (runHooks hr b.collectionName HookType.pre_create
          (Payload.record data)).2 = some e →
      (create hr st b uuid data).err = some e ∧
        ∀ ev ∈ (create hr st b uuid data).trace, isStoreWrite ev = false) ∧
    (∀ e, ensureCollection b = none →
      validateUpdateFields modelReg updates b = none →
      (runHooks hr b.collectionName HookType.pre_update
          (Payload.upd (aset updates ("updated_at")
            Value.serverTimestamp))).2 = some e →
      (update hr modelReg st b docId updates).1.err = some e ∧
        ∀ ev ∈ (update hr modelReg st b docId updates).1.trace,
          isStoreWrite ev = false) ∧
    (∀ e, (runHooks hr b.collectionName HookType.pre_delete
          (Payload.docId docId)).2 = some e →
      (delete hr modelReg st b docId now).err = some e ∧
        ∀ ev ∈ (delete hr modelReg st b docId now).trace,
          isStoreWrite ev = false) := by
  refine ⟨fun e h1 h2 h3 h4 => ?_, fun e h1 h2 h3 => ?_, fun e h1 => ?_⟩
  · have hc : create hr st b uuid data =
        ⟨(runHooks hr b.collectionName HookType.pre_create
            (Payload.record data)).1, some e⟩ := by
      simp [create, h1, h2, h3, h4]
    rw [hc]
    exact ⟨rfl, fun ev hev => runHooks_no_store_writes _ _ _ _ ev hev⟩
  · have hc : update hr modelReg st b docId updates =
        (⟨(runHooks hr b.collectionName HookType.pre_update
            (Payload.upd (aset updates ("updated_at")
              Value.serverTimestamp))).1, some e⟩,
          aset updates ("updated_at") Value.serverTimestamp) := by
      simp [update, h1, h2, h3]
    rw [hc]
    exact ⟨rfl, fun ev hev => runHooks_no_store_writes _ _ _ _ ev hev⟩
  · have hc : delete hr modelReg st b docId now =
        ⟨(runHooks hr b.collectionName HookType.pre_delete
            (Payload.docId docId)).1, some e⟩ := by
      simp [delete, h1]
    rw [hc]
    exact ⟨rfl, fun ev hev => runHooks_no_store_writes _ _ _ _ ev hev⟩

/-- Base model fixture registered under the tasks collection. -/
def bW : BaseModel :=
  ⟨"", "tasks", "Task"⟩

/-- A record that passes validation. -/
def dataW : RecordData :=
  ⟨true, true, []⟩

/-- Model registry fixture holding the tasks.Task schema. -/
def modelRegW : List (String × ModelInfo) :=
  [("tasks.Task", ⟨"tasks", [("title", "Title")], [("Title", "required")]⟩)]

/-- An update map touching a recognized, satisfied required field. -/
def updatesW : List (String × Value) :=
  [("title", Value.str ("x"))]

/-- A store whose writes succeed and whose queries are empty. -/
def stW : Store :=
  ⟨fun _ _ => none, fun _ _ _ => none,
    fun _ _ => Except.error (GoErr.msg ("not found")), fun _ => []⟩

/-- A store whose writes fail. -/
def stFail : Store :=
  ⟨fun _ _ => some (GoErr.msg ("seterr")), fun _ _ _ => some (GoErr.msg ("uerr")),
    fun _ _ => Except.error (GoErr.msg ("not found")), fun _ => []⟩

/-- A fixed wall-clock date. -/
def nowW : Date :=
  ⟨2026, 1, 2⟩

/-- Registry whose pre_create, pre_update and pre_delete hooks on the
tasks collection all fail. -/
def regFail : HookRegistry :=
  registerHook
    (registerHook
      (registerHook newHookRegistry ("tasks") HookType.pre_create hookBoom)
      ("tasks") HookType.pre_update hookBoom)
    ("tasks") HookType.pre_delete hookBoom

/-- Witness for C2: with failing pre-event hooks, Create, Update and
Delete each return the wrapped hook error. -/
theorem C2_pre_hooks_gate_mutations_witness :
    (create regFail stW bW ("u1") dataW).err
        = some (GoErr.hookFailed HookType.pre_create ("tasks")
            (GoErr.msg ("boom"))) ∧
    (update regFail modelRegW stW bW ("d1") updatesW).1.err
        = some (GoErr.hookFailed HookType.pre_update ("tasks")
            (GoErr.msg ("boom"))) ∧
    (delete regFail modelRegW stW bW ("d1") nowW).err
        = some (GoErr.hookFailed HookType.pre_delete ("tasks")
            (GoErr.msg ("boom"))) :=
  ⟨((C2_pre_hooks_gate_mutations regFail modelRegW stW bW ("u1") ("d1") dataW
      updatesW nowW).1 (GoErr.hookFailed HookType.pre_create ("tasks")
        (GoErr.msg ("boom"))) (by decide) (by decide) (by decide) (by decide)).1,
   ((C2_pre_hooks_gate_mutations regFail modelRegW stW bW ("u1") ("d1") dataW
      updatesW nowW).2.1 (GoErr.hookFailed HookType.pre_update ("tasks")
        (GoErr.msg ("boom"))) (by decide) (by decide) (by decide)).1,
   ((C2_pre_hooks_gate_mutations regFail modelRegW stW bW ("u1") ("d1") dataW
      updatesW nowW).2.2 (GoErr.hookFailed HookType.pre_delete ("tasks")
        (GoErr.msg ("boom"))) (by decide)).1⟩

/-- C4: post-event hook outcomes are discarded: when Create or Update
reach the store, the operation returns exactly the outcome of the store
write, the post-event hooks are attempted right after the write whatever
its outcome, and nothing after the write is a further store write (no
rollback). Delete attempts its post_delete hooks exactly when the
underlying update succeeded, and when it failed no post_delete hook
invocation appears in the trace. -/
theorem C4_post_hooks_discarded (hr : HookRegistry)
    (modelReg : List (String × ModelInfo)) (st : Store) (b : BaseModel)
    (uuid docId : String) (data : RecordData)
    (updates : List (String × Value)) (now : Date) :
    (ensureCollection b = none → validateStruct data = none →
      data.isPtrToStruct = true →
      (runHooks hr b.collectionName HookType.pre_create
          (Payload.record data)).2 = none →
      create hr st b uuid data =
        ⟨(runHooks hr b.collectionName HookType.pre_create
            (Payload.record data)).1
          ++ [Event.storeSet b.collectionName uuid]
          ++ (runHooks hr b.collectionName HookType.post_create
              (Payload.record data)).1,
          st.setRes b.collectionName uuid⟩ ∧
      ∀ ev ∈ (runHooks hr b.collectionName HookType.post_create
          (Payload.record data)).1, isStoreWrite ev = false) ∧
    (ensureCollection b = none →
      validateUpdateFields modelReg updates b = none →
      (runHooks hr b.collectionName HookType.pre_update
          (Payload.upd (aset updates ("updated_at")
            Value.serverTimestamp))).2 = none →
      update hr modelReg st b docId updates =
        (⟨(runHooks hr b.collectionName HookType.pre_update
              (Payload.upd (aset updates ("updated_at")
                Value.serverTimestamp))).1
            ++ [Event.storeUpdate b.collectionName docId
                (updatesToFirestoreUpdates (aset updates ("updated_at")
                  Value.serverTimestamp))]
            ++ (runHooks hr b.collectionName HookType.post_update
                (Payload.upd (aset updates ("updated_at")
                  Value.serverTimestamp))).1,
            st.updateRes b.collectionName docId
              (updatesToFirestoreUpdates (aset updates ("updated_at")
                Value.serverTimestamp))⟩,
          aset updates ("updated_at") Value.serverTimestamp) ∧
      ∀ ev ∈ (runHooks hr b.collectionName HookType.post_update
          (Payload.upd (aset updates ("updated_at")
            Value.serverTimestamp))).1, isStoreWrite ev = false) ∧
    ((runHooks hr b.collectionName HookType.pre_delete
        (Payload.docId docId)).2 = none →
      ((update hr modelReg st b docId (deleteUpdates now)).1.err = none →
        delete hr modelReg st b docId now =
          ⟨(runHooks hr b.collectionName HookType.pre_delete
              (Payload.docId docId)).1
            ++ (update hr modelReg st b docId (deleteUpdates now)).1.trace
            ++ (runHooks hr b.collectionName HookType.post_delete
                (Payload.docId docId)).1, none⟩) ∧
      (∀ e, (update hr modelReg st b docId (deleteUpdates now)).1.err = some e →
        delete hr modelReg st b docId now =
          ⟨(runHooks hr b.collectionName HookType.pre_delete
              (Payload.docId docId)).1
            ++ (update hr modelReg st b docId (deleteUpdates now)).1.trace,
            some e⟩ ∧
        ∀ ev ∈ (delete hr modelReg st b docId now).trace,
          isCallOf HookType.post_delete ev = false)) := by
  refine ⟨fun h1 h2 h3 h4 => ⟨?_, ?_⟩, fun h1 h2 h3 => ⟨?_, ?_⟩,
    fun h1 => ⟨fun h2 => ?_, fun e h2 => ⟨?_, ?_⟩⟩⟩
  · simp [create, h1, h2, h3, h4]
  · exact fun ev hev => runHooks_no_store_writes _ _ _ _ ev hev
  · simp [update, h1, h2, h3]
  · exact fun ev hev => runHooks_no_store_writes _ _ _ _ ev hev
  · simp [delete, h1, h2]
  · simp [delete, h1, h2]
  · have hc : delete hr modelReg st b docId now =
        ⟨(runHooks hr b.collectionName HookType.pre_delete
            (Payload.docId docId)).1
          ++ (update hr modelReg st b docId (deleteUpdates now)).1.trace,
          some e⟩ := by
      simp [delete, h1, h2]
    rw [hc]
    intro ev hev
    simp only [List.mem_append] at hev
    rcases hev with h | h
    · exact runHooks_calls_of hr b.collectionName HookType.pre_delete
        HookType.post_delete _ ev h (by decide)
    · exact update_calls_only hr modelReg st b docId (deleteUpdates now)
        HookType.post_delete (by decide) (by decide) ev h

/-- Witness for C4: with no registered hooks and a succeeding store,
Create returns the store outcome with the Set write in the trace; with a
failing store, Delete returns the update error and attempts no
post_delete hooks. -/
theorem C4_post_hooks_discarded_witness :
    create newHookRegistry stW bW ("u1") dataW =
      ⟨(runHooks newHookRegistry bW.collectionName HookType.pre_create
          (Payload.record dataW)).1
        ++ [Event.storeSet bW.collectionName ("u1")]
        ++ (runHooks newHookRegistry bW.collectionName HookType.post_create
            (Payload.record dataW)).1,
        stW.setRes bW.collectionName ("u1")⟩ ∧
    delete newHookRegistry modelRegW stFail bW ("d1") nowW =
      ⟨(runHooks newHookRegistry bW.collectionName HookType.pre_delete
          (Payload.docId ("d1"))).1
        ++ (update newHookRegistry modelRegW stFail bW ("d1")
            (deleteUpdates nowW)).1.trace,
        some (GoErr.msg ("uerr"))⟩ :=
  ⟨((C4_post_hooks_discarded newHookRegistry modelRegW stW bW ("u1") ("d1")
      dataW updatesW nowW).1 (by decide) (by decide) (by decide) (by decide)).1,
   (((C4_post_hooks_discarded newHookRegistry modelRegW stFail bW ("u1") ("d1")
      dataW updatesW nowW).2.2 (by decide)).2 (GoErr.msg ("uerr"))
        (by decide)).1⟩

/-- C10: Update mutates the caller-supplied map in place: once
validation has passed, the updated_at server-timestamp sentinel is
inserted into that same map before the pre_update hooks run and before
the store write, so the map handed back to the caller is exactly the
original map with updated_at set, every other entry unchanged; the hook
payload carries that map and any store write in the trace carries it
too. -/
theorem C10_update_mutates_map (hr : HookRegistry)
    (modelReg : List (String × ModelInfo)) (st : Store) (b : BaseModel)
    (docId : String) (updates : List (String × Value))
    (h1 : ensureCollection b = none)
    (h2 : validateUpdateFields modelReg updates b = none) :
    (update hr modelReg st b docId updates).2
        = aset updates ("updated_at") Value.serverTimestamp ∧
    alookup (update hr modelReg st b docId updates).2 ("updated_at")
        = some Value.serverTimestamp ∧
    (∀ k, k ≠ "updated_at" →
      alookup (update hr modelReg st b docId updates).2 k
        = alookup updates k) ∧
    (∃ rest, (update hr modelReg st b docId updates).1.trace =
      (runHooks hr b.collectionName HookType.pre_update
          (Payload.upd (aset updates ("updated_at")
            Value.serverTimestamp))).1 ++ rest) ∧
    (∀ c d m, Event.storeUpdate c d m
        ∈ (update hr modelReg st b docId updates).1.trace →
      m = updatesToFirestoreUpdates (aset updates ("updated_at")
            Value.serverTimestamp)) := by
  have h2nd : (update hr modelReg st b docId updates).2
      = aset updates ("updated_at") Value.serverTimestamp := by
    unfold update
    rw [h1, h2]
    cases hP : (runHooks hr b.collectionName HookType.pre_update
        (Payload.upd (aset updates ("updated_at")
          Value.serverTimestamp))).2 with
    | some e => simp [hP]
    | none => simp [hP]
  refine ⟨h2nd, ?_, ?_, ?_, ?_⟩
  · rw [h2nd]
    exact alookup_aset_self updates _ Value.serverTimestamp
  · intro k hk
    rw [h2nd]
    exact alookup_aset_other updates _ k Value.serverTimestamp hk
  · unfold update
    rw [h1, h2]
    cases hP : (runHooks hr b.collectionName HookType.pre_update
        (Payload.upd (aset updates ("updated_at")
          Value.serverTimestamp))).2 with
    | some e =>
        refine ⟨[], ?_⟩
        simp [hP]
    | none =>
        refine ⟨[Event.storeUpdate b.collectionName docId
            (updatesToFirestoreUpdates (aset updates ("updated_at")
              Value.serverTimestamp))]
          ++ (runHooks hr b.collectionName HookType.post_update
              (Payload.upd (aset updates ("updated_at")
                Value.serverTimestamp))).1, ?_⟩
        simp [hP]
  · intro c d m hm
    cases hP : (runHooks hr b.collectionName HookType.pre_update
        (Payload.upd (aset updates ("updated_at")
          Value.serverTimestamp))).2 with
    | some e =>
        have hc : (update hr modelReg st b docId updates).1.trace =
            (runHooks hr b.collectionName HookType.pre_update
              (Payload.upd (aset updates ("updated_at")
                Value.serverTimestamp))).1 := by
          simp [update, h1, h2, hP]
        rw [hc] at hm
        have hw := runHooks_no_store_writes hr b.collectionName
          HookType.pre_update (Payload.upd (aset updates ("updated_at")
            Value.serverTimestamp)) _ hm
        simp [isStoreWrite] at hw
    | none =>
        have hc : (update hr modelReg st b docId updates).1.trace =
            (runHooks hr b.collectionName HookType.pre_update
              (Payload.upd (aset updates ("updated_at")
                Value.serverTimestamp))).1
              ++ [Event.storeUpdate b.collectionName docId
                  (updatesToFirestoreUpdates (aset updates ("updated_at")
                    Value.serverTimestamp))]
              ++ (runHooks hr b.collectionName HookType.post_update
                  (Payload.upd (aset updates ("updated_at")
                    Value.serverTimestamp))).1 := by
          simp [update, h1, h2, hP]
        rw [hc] at hm
        simp only [List.mem_append, List.mem_singleton] at hm
        rcases hm with (h | h) | h
        · have hw := runHooks_no_store_writes hr b.collectionName
            HookType.pre_update (Payload.upd (aset updates ("updated_at")
              Value.serverTimestamp)) _ h
          simp [isStoreWrite] at hw
        · cases h
          rfl
        · have hw := runHooks_no_store_writes hr b.collectionName
            HookType.post_update (Payload.upd (aset updates ("updated_at")
              Value.serverTimestamp)) _ h
          simp [isStoreWrite] at hw

/-- Witness for C10: on a registered model with a recognized field, the
caller map after Update is the original map with updated_at inserted. -/
theorem C10_update_mutates_map_witness :
    (update newHookRegistry modelRegW stW bW ("d1") updatesW).2
        = aset updatesW ("updated_at") Value.serverTimestamp ∧
    alookup (update newHookRegistry modelRegW stW bW ("d1") updatesW).2
        ("updated_at") = some Value.serverTimestamp :=
  ⟨(C10_update_mutates_map newHookRegistry modelRegW stW bW ("d1") updatesW
      (by decide) (by decide)).1,
   (C10_update_mutates_map newHookRegistry modelRegW stW bW ("d1") updatesW
      (by decide) (by decide)).2.1⟩

/-- C5: filter parsing. Without the separator: a list value compiles to
the in operator with the value unchanged; a string value compiles to
equality, with a lenient date parse substituting the parsed timestamp on
success and keeping the string on failure; this path never errors. With
the separator: the suffix maps gt, gte, lt, lte to the four comparisons
and anything else to equality, and a string value must parse as a
YYYY-MM-DD date or the call fails with a hard error naming the key. -/
theorem C5_parse_filter (key : String) (value : Value) (s : String)
    (elems : List Prim) :
    (hasSep key = false → value = Value.listV elems →
      parseFilter key value = Except.ok (key, "in", value)) ∧
    (hasSep key = false → value = Value.str s →
      (parseDate s = none →
        parseFilter key value = Except.ok (key, "==", Value.str s)) ∧
      (∀ d, parseDate s = some d →
        parseFilter key value = Except.ok (key, "==", Value.timeV d))) ∧
    (hasSep key = false → ∃ out, parseFilter key value = Except.ok out) ∧
    (suffixOp ("gt") = ">" ∧ suffixOp ("gte") = ">=" ∧ suffixOp ("lt") = "<"
      ∧ suffixOp ("lte") = "<=" ∧
      ∀ sfx, sfx ≠ "gt" → sfx ≠ "gte" → sfx ≠ "lt" → sfx ≠ "lte" →
        suffixOp sfx = "==") ∧
    (hasSep key = true →
      (value = Value.str s →
        (∀ d, parseDate s = some d →
          parseFilter key value =
            Except.ok ((splitFirst key).1, suffixOp (splitFirst key).2,
              Value.timeV d)) ∧
        (parseDate s = none →
          parseFilter key value =
            Except.error (GoErr.msg ("invalid date format for " ++ key)))) ∧
      ((∀ t, value ≠ Value.str t) →
        parseFilter key value =
          Except.ok ((splitFirst key).1, suffixOp (splitFirst key).2,
            value))) := by
  refine ⟨fun h hv => ?_, fun h hv => ⟨fun hd => ?_, fun d hd => ?_⟩,
    fun h => ?_, ⟨by simp [suffixOp], by simp [suffixOp], by simp [suffixOp],
      by simp [suffixOp], fun sfx h1 h2 h3 h4 => by simp [suffixOp, h1, h2, h3, h4]⟩,
    fun h => ⟨fun hv => ⟨fun d hd => ?_, fun hd => ?_⟩, fun hns => ?_⟩⟩
  · subst hv
    simp [parseFilter, h, isListValue]
  · subst hv
    simp [parseFilter, h, isListValue, hd]
  · subst hv
    simp [parseFilter, h, isListValue, hd]
  · cases value with
    | vnil => exact ⟨(key, "==", Value.vnil), by simp [parseFilter, h, isListValue]⟩
    | str s2 =>
        cases hd : parseDate s2 with
        | none =>
            exact ⟨(key, "==", Value.str s2),
              by simp [parseFilter, h, isListValue, hd]⟩
        | some d =>
            exact ⟨(key, "==", Value.timeV d),
              by simp [parseFilter, h, isListValue, hd]⟩
    | boolV b2 =>
        exact ⟨(key, "==", Value.boolV b2), by simp [parseFilter, h, isListValue]⟩
    | intV n2 =>
        exact ⟨(key, "==", Value.intV n2), by simp [parseFilter, h, isListValue]⟩
    | timeV d2 =>
        exact ⟨(key, "==", Value.timeV d2), by simp [parseFilter, h, isListValue]⟩
    | serverTimestamp =>
        exact ⟨(key, "==", Value.serverTimestamp),
          by simp [parseFilter, h, isListValue]⟩
    | listV es =>
        exact ⟨(key, "in", Value.listV es), by simp [parseFilter, h, isListValue]⟩
  · subst hv
    simp [parseFilter, h, hd]
  · subst hv
    simp [parseFilter, h, hd]
  · cases value with
    | vnil => simp [parseFilter, h]
    | str s2 => exact absurd rfl (hns s2)
    | boolV b2 => simp [parseFilter, h]
    | intV n2 => simp [parseFilter, h]
    | timeV d2 => simp [parseFilter, h]
    | serverTimestamp => simp [parseFilter, h]
    | listV es => simp [parseFilter, h]

/-- Witness for C5: a suffixed key with a valid date coerces to the
comparison operator and timestamp, and a plain key with a non-date
string keeps the string under equality. -/
theorem C5_parse_filter_witness :
    parseFilter ("event_date__gte") (Value.str ("2025-04-01"))
        = Except.ok (("event_date"), (">="), Value.timeV ⟨2025, 4, 1⟩) ∧
    parseFilter ("status") (Value.str ("active"))
        = Except.ok (("status"), ("=="), Value.str ("active")) := by
  constructor
  · have h := (((C5_parse_filter ("event_date__gte")
        (Value.str ("2025-04-01")) ("2025-04-01") []).2.2.2.2
          (by decide)).1 rfl).1 ⟨2025, 4, 1⟩ (by decide)
    rw [h]
    decide
  · have h := (((C5_parse_filter ("status") (Value.str ("active"))
        ("active") []).2.1 (by decide) rfl).1 (by decide))
    rw [h]

/-- One unfolding step of the update-validation loop, phrased through
the per-entry checker. -/
theorem validateLoop_cons (info : ModelInfo) (collectionName k : String)
    (v : Value) (rest : List (String × Value)) :
    validateLoop info collectionName ((k, v) :: rest) =
      match entryViolation info collectionName k v with
      | some e => some e
      | none => validateLoop info collectionName rest := by
  by_cases hp : protectedKeys k = true
  · simp [validateLoop, entryViolation, hp]
  · cases ht : alookup info.tagToFieldMap k with
    | none => simp [validateLoop, entryViolation, hp, ht]
    | some fieldName =>
        by_cases hreq : orEmpty (alookup info.fieldValidateTag fieldName)
            = "required" ∧ (v = Value.vnil ∨ v = Value.str "")
        · simp [validateLoop, entryViolation, hp, ht, hreq]
        · simp [validateLoop, entryViolation, hp, ht, hreq]

theorem validateLoop_none_iff (info : ModelInfo) (collectionName : String) :
    ∀ updates : List (String × Value),
      (validateLoop info collectionName updates = none ↔
        ∀ k2 v2, (k2, v2) ∈ updates →
          entryViolation info collectionName k2 v2 = none) := by
  intro updates
  induction updates with
  | nil => simp [validateLoop]
  | cons kv rest ih =>
      obtain ⟨k, v⟩ := kv
      rw [validateLoop_cons]
      cases he : entryViolation info collectionName k v with
      | some e =>
          simp only []
          constructor
          · intro h
            cases h
          · intro hall
            have h2 := hall k v (List.mem_cons_self _ _)
            rw [he] at h2
            cases h2
      | none =>
          simp only []
          rw [ih]
          constructor
          · intro hall k2 v2 hm
            rcases List.mem_cons.mp hm with h2 | h2
            · cases h2
              exact he
            · exact hall k2 v2 h2
          · intro hall k2 v2 hm
            exact hall k2 v2 (List.mem_cons_of_mem _ hm)

theorem validateLoop_first (info : ModelInfo) (collectionName : String) :
    ∀ (pre : List (String × Value)) (k : String) (v : Value)
      (post : List (String × Value)) (e : GoErr),
      (∀ k2 v2, (k2, v2) ∈ pre →
        entryViolation info collectionName k2 v2 = none) →
      entryViolation info collectionName k v = some e →
      validateLoop info collectionName (pre ++ (k, v) :: post) = some e := by
  intro pre
  induction pre with
  | nil =>
      intro k v post e _ hv
      rw [List.nil_append, validateLoop_cons, hv]
  | cons kv0 rest ih =>
      intro k v post e hall hv
      obtain ⟨k0, v0⟩ := kv0
      rw [List.cons_append, validateLoop_cons,
        hall k0 v0 (List.mem_cons_self _ _)]
      exact ih k v post e
        (fun k2 v2 h2 => hall k2 v2 (List.mem_cons_of_mem _ h2)) hv

/-- C6 counterexample: an updates map containing only the protected key
deleted fails validation when the collection is not registered, because
the registry lookup happens unconditionally before any key is examined,
so the claim that protected keys validate without a schema lookup fails
on this input. -/
theorem C6_counterexample :
    ¬ validateUpdateFields [] [(("deleted"), Value.boolV true)]
        ⟨"", "ghost", "Task"⟩ = none := by
  decide

/-- C6, amended: update validation performs the registry lookup first
and unconditionally, so an unregistered (collection, modelName) is a
hard error whatever the updates map contains; once the schema is found,
the protected keys deleted, deleted_at and updated_at are accepted
without a tag lookup, every other key must resolve in the tag-to-field
map (a hard error naming the field otherwise), a resolved field marked
required must not be nil or the empty string, and validation stops at
the first violation in iteration order. -/
theorem C6_update_validation (modelReg : List (String × ModelInfo))
    (updates : List (String × Value)) (b : BaseModel) (info : ModelInfo) :
    (alookup modelReg (b.collectionName ++ "." ++ b.modelName) = none →
      validateUpdateFields modelReg updates b
        = some (GoErr.msg ("collection " ++ b.collectionName
            ++ " is not registered"))) ∧
    (alookup modelReg (b.collectionName ++ "." ++ b.modelName) = some info →
      ((validateUpdateFields modelReg updates b = none ↔
        ∀ k2 v2, (k2, v2) ∈ updates →
          entryViolation info b.collectionName k2 v2 = none) ∧
      (∀ pre k v post e, updates = pre ++ (k, v) :: post →
        (∀ k2 v2, (k2, v2) ∈ pre →
          entryViolation info b.collectionName k2 v2 = none) →
        entryViolation info b.collectionName k v = some e →
        validateUpdateFields modelReg updates b = some e))) := by
  constructor
  · intro h
    simp [validateUpdateFields, getModelInfo, h]
  · intro h
    have hv : validateUpdateFields modelReg updates b
        = validateLoop info b.collectionName updates := by
      simp [validateUpdateFields, getModelInfo, h]
    rw [hv]
    refine ⟨validateLoop_none_iff info b.collectionName updates,
      fun pre k v post e hu hall hviol => ?_⟩
    rw [hu]
    exact validateLoop_first info b.collectionName pre k v post e hall hviol

/-- Witness for C6 (amended): an unregistered collection is rejected
even for a protected-only map, and an unrecognized field is rejected by
name for a registered one. -/
theorem C6_update_validation_witness :
    validateUpdateFields [] [(("deleted"), Value.boolV true)]
        ⟨"", "ghost", "Task"⟩
      = some (GoErr.msg ("collection ghost is not registered")) ∧
    validateUpdateFields modelRegW [(("nope"), Value.str ("x"))] bW
      = some (GoErr.msg
          ("field nope does not exist in the model for collection tasks")) := by
  constructor
  · rw [(C6_update_validation [] [(("deleted"), Value.boolV true)]
        ⟨"", "ghost", "Task"⟩ ⟨"", [], []⟩).1 (by decide)]
    decide
  · exact (C6_update_validation modelRegW [(("nope"), Value.str ("x"))] bW
      ⟨"tasks", [("title", "Title")], [("Title", "required")]⟩).2 (by decide)
      |>.2 [] ("nope") (Value.str ("x")) []
        (GoErr.msg ("field nope does not exist in the model for collection tasks"))
        rfl (by simp) (by decide)

theorem applyOperatorFilters_qlimit :
    ∀ (filters : List (String × Value)) (q q2 : Query),
      applyOperatorFilters q filters = Except.ok q2 → q2.qlimit = q.qlimit := by
  intro filters
  induction filters with
  | nil =>
      intro q q2 h
      simp [applyOperatorFilters] at h
      rw [← h]
  | cons kv rest ih =>
      intro q q2 h
      obtain ⟨key, value⟩ := kv
      unfold applyOperatorFilters at h
      cases hp : parseFilter key value with
      | error e =>
          rw [hp] at h
          cases h
      | ok t =>
          rw [hp] at h
          obtain ⟨f, op, nv⟩ := t
          have h2 := ih (Query.whereF q f op nv) q2 h
          simpa [Query.whereF] using h2

theorem sortedQuery_qlimit (q1 q2 : Query) (sortField sortOrder : String)
    (h : sortedQuery q1 sortField sortOrder = Except.ok q2) :
    q2.qlimit = q1.qlimit := by
  unfold sortedQuery at h
  by_cases h1 : sortField = ""
  · simp [h1] at h
    rw [← h]
  · by_cases h2 : sortOrder = "asc"
    · simp [h1, h2] at h
      rw [← h]
    · by_cases h3 : sortOrder = "desc"
      · simp [h1, h2, h3] at h
        rw [← h]
      · simp [h1, h2, h3] at h

theorem cursoredQuery_qlimit (st : Store) (collection : String)
    (q2 q3 : Query) (startAfter : String)
    (h : cursoredQuery st collection q2 startAfter = Except.ok q3) :
    q3.qlimit = q2.qlimit := by
  unfold cursoredQuery at h
  by_cases h1 : startAfter = ""
  · simp [h1] at h
    rw [← h]
  · cases hg : st.getDoc collection startAfter with
    | error e =>
        simp [h1, hg] at h
    | ok doc =>
        simp [h1, hg] at h
        rw [← h]

theorem listLoop_results :
    ∀ (steps : List IterStep) (acc : List Doc),
      (listLoop steps acc).1 = acc ++ processedDocs steps := by
  intro steps
  induction steps with
  | nil =>
      intro acc
      simp [listLoop, processedDocs]
  | cons s rest ih =>
      intro acc
      cases s with
      | iterFail e => simp [listLoop, processedDocs]
      | nextDoc d =>
          cases hd : d.dataToErr with
          | some e => simp [listLoop, processedDocs, hd]
          | none => simp [listLoop, processedDocs, hd, ih]

/-- Every outcome of a List call: either an early error leaving the
caller slice untouched and no query sent, or the query is sent with the
limit exactly when positive, the caller slice grows by the processed
prefix of the stream, and the token is derived only on clean success. -/
theorem list_spec (st : Store) (b : BaseModel)
    (filters : List (String × Value)) (limit : Int)
    (startAfter sortField sortOrder : String) (init : List Doc) :
    (∃ e, list st b filters limit startAfter sortField sortOrder init
        = ⟨init, "", some e, none⟩) ∨
    (∃ q4, (list st b filters limit startAfter sortField sortOrder
          init).sentQuery = some q4 ∧
      q4.qlimit = (if 0 < limit then some limit else none) ∧
      ((∃ e, list st b filters limit startAfter sortField sortOrder init
          = ⟨init ++ processedDocs (st.runQuery q4), "", some e, some q4⟩) ∨
        list st b filters limit startAfter sortField sortOrder init
          = ⟨init ++ processedDocs (st.runQuery q4),
             if 0 < limit
                 ∧ (((init ++ processedDocs (st.runQuery q4)).length : Int)
                    = limit) then
               lastDocId (init ++ processedDocs (st.runQuery q4))
             else "",
             none, some q4⟩)) := by
  cases hE : ensureCollection b with
  | some e => exact Or.inl ⟨e, by simp [list, hE]⟩
  | none =>
      cases hAF : applyOperatorFilters (Query.whereF
          (emptyQuery b.collectionName) ("deleted") ("==")
          (Value.boolV false)) filters with
      | error e => exact Or.inl ⟨e, by simp [list, hE, hAF]⟩
      | ok q1 =>
          cases hS : sortedQuery q1 sortField sortOrder with
          | error e => exact Or.inl ⟨e, by simp [list, hE, hAF, hS]⟩
          | ok q2 =>
              cases hC : cursoredQuery st b.collectionName q2 startAfter with
              | error e => exact Or.inl ⟨e, by simp [list, hE, hAF, hS, hC]⟩
              | ok q3 =>
                  have hq3 : q3.qlimit = none := by
                    have h1 := applyOperatorFilters_qlimit filters _ q1 hAF
                    have h2 := sortedQuery_qlimit q1 q2 sortField sortOrder hS
                    have h3 := cursoredQuery_qlimit st b.collectionName q2 q3
                      startAfter hC
                    rw [h3, h2, h1]
                    simp [Query.whereF, emptyQuery]
                  have hq4 : (if 0 < limit then
                        { q3 with qlimit := some limit } else q3).qlimit
                      = (if 0 < limit then some limit else none) := by
                    by_cases hlt : 0 < limit
                    · simp [hlt]
                    · simp [hlt, hq3]
                  cases hL : (listLoop (st.runQuery (if 0 < limit then
                      { q3 with qlimit := some limit } else q3)) init).2 with
                  | some e =>
                      refine Or.inr ⟨(if 0 < limit then
                          { q3 with qlimit := some limit } else q3),
                        ?_, hq4, Or.inl ⟨e, ?_⟩⟩
                      · simp [list, hE, hAF, hS, hC, hL]
                      · have hres := listLoop_results (st.runQuery
                          (if 0 < limit then { q3 with qlimit := some limit }
                            else q3)) init
                        simp [list, hE, hAF, hS, hC, hL, hres]
                  | none =>
                      refine Or.inr ⟨(if 0 < limit then
                          { q3 with qlimit := some limit } else q3),
                        ?_, hq4, Or.inr ?_⟩
                      · simp [list, hE, hAF, hS, hC, hL]
                      · have hres := listLoop_results (st.runQuery
                          (if 0 < limit then { q3 with qlimit := some limit }
                            else q3)) init
                        simp [list, hE, hAF, hS, hC, hL, hres]

/-- C7: List pagination. A non-positive limit leaves the query uncapped
and never produces a next-page token; a positive limit caps the query at
exactly that limit and, on success, the token is the identifier of the
last returned item precisely when the number of returned items equals
the limit, and empty otherwise. -/
theorem C7_list_pagination (st : Store) (b : BaseModel)
    (filters : List (String × Value)) (limit : Int)
    (startAfter sortField sortOrder : String) :
    (limit ≤ 0 →
      (list st b filters limit startAfter sortField sortOrder []).token = ""
      ∧ ∀ q, (list st b filters limit startAfter sortField sortOrder
          []).sentQuery = some q → q.qlimit = none) ∧
    (0 < limit →
      (∀ q, (list st b filters limit startAfter sortField sortOrder
          []).sentQuery = some q → q.qlimit = some limit) ∧
      ((list st b filters limit startAfter sortField sortOrder []).err = none →
        (list st b filters limit startAfter sortField sortOrder []).token =
          if (((list st b filters limit startAfter sortField sortOrder
              []).results.length : Int) = limit) then
            lastDocId (list st b filters limit startAfter sortField sortOrder
              []).results
          else "")) := by
  rcases list_spec st b filters limit startAfter sortField sortOrder []
    with ⟨e, hl⟩ | ⟨q4, hsq, hql, hout⟩
  · constructor
    · intro hle
      refine ⟨by simp [hl], fun q hq => ?_⟩
      rw [hl] at hq
      simp at hq
    · intro hlt
      refine ⟨fun q hq => ?_, fun herr => ?_⟩
      · rw [hl] at hq
        simp at hq
      · rw [hl] at herr
        simp at herr
  · constructor
    · intro hle
      have hle2 : ¬ 0 < limit := by omega
      constructor
      · rcases hout with ⟨e, hl⟩ | hl
        · simp [hl]
        · rw [hl]
          simp [hle2]
      · intro q hq
        rw [hsq] at hq
        have hq2 : q4 = q := Option.some.inj hq
        rw [← hq2, hql]
        simp [hle2]
    · intro hlt
      constructor
      · intro q hq
        rw [hsq] at hq
        have hq2 : q4 = q := Option.some.inj hq
        rw [← hq2, hql]
        simp [hlt]
      · intro herr
        rcases hout with ⟨e, hl⟩ | hl
        · rw [hl] at herr
          simp at herr
        · rw [hl]
          simp [hlt]

/-- A store with two clean documents in every query result. -/
def stW7 : Store :=
  ⟨fun _ _ => none, fun _ _ _ => none,
    fun _ _ => Except.error (GoErr.msg ("nf")),
    fun _ => [IterStep.nextDoc ⟨"doc1", none⟩, IterStep.nextDoc ⟨"doc2", none⟩]⟩

/-- Witness for C7: with two matching documents, limit 2 yields the
identifier of the last returned item as the token, and limit 0 yields no
token. -/
theorem C7_list_pagination_witness :
    (list stW7 bW [] 2 ("") ("") ("") []).token = ("doc2") ∧
    (list stW7 bW [] 0 ("") ("") ("") []).token = ("") := by
  constructor
  · have h := ((C7_list_pagination stW7 bW [] 2 ("") ("") ("")).2
      (by decide)).2 (by decide)
    rw [h]
    decide
  · exact ((C7_list_pagination stW7 bW [] 0 ("") ("") ("")).1 (by decide)).1

theorem countLoop_zero_on_err :
    ∀ (steps : List IterStep) (n : Nat) (e : GoErr),
      (countLoop steps n).2 = some e → (countLoop steps n).1 = 0 := by
  intro steps
  induction steps with
  | nil =>
      intro n e h
      simp [countLoop] at h
  | cons s rest ih =>
      intro n e h
      cases s with
      | iterFail e2 => simp [countLoop]
      | nextDoc d =>
          simp only [countLoop] at h ⊢
          exact ih (n + 1) e h

theorem count_zero_on_err (st : Store) (b : BaseModel)
    (filters : List (String × Value)) :
    ∀ e, (count st b filters).err = some e → (count st b filters).count = 0 := by
  intro e h
  cases hE : ensureCollection b with
  | some e2 => simp [count, hE]
  | none =>
      cases hAF : applyOperatorFilters (Query.whereF
          (emptyQuery b.collectionName) ("deleted") ("==")
          (Value.boolV false)) filters with
      | error e2 => simp [count, hE, hAF]
      | ok q1 =>
          simp only [count, hE, hAF] at h ⊢
          exact countLoop_zero_on_err (st.runQuery q1) 0 e h

/-- A store whose query stream yields one document then fails. -/
def stC8 : Store :=
  ⟨fun _ _ => none, fun _ _ _ => none,
    fun _ _ => Except.error (GoErr.msg ("nf")),
    fun _ => [IterStep.nextDoc ⟨"doc1", none⟩,
      IterStep.iterFail (GoErr.msg ("io"))]⟩

/-- C8 counterexample: when iteration fails after one document was
already materialized, List returns an error yet the caller-visible
results slice holds that document, so the claim that no partial results
reach the caller on error fails on this input. -/
theorem C8_counterexample :
    ¬ (list stC8 bW [] 0 ("") ("") ("") []).err = none ∧
    (list stC8 bW [] 0 ("") ("") ("") []).results = [⟨"doc1", none⟩] := by
  decide

/-- C8, amended: Count is all-or-nothing, returning zero alongside any
error; List on error returns an empty token, and when the failure
happens before the store query is issued the caller slice is untouched,
but once the query ran the caller slice ends up holding its initial
content plus every document successfully materialized before the
failure (partial accumulation is visible to the caller). -/
theorem C8_error_outcomes (st : Store) (b : BaseModel)
    (filters : List (String × Value)) (limit : Int)
    (startAfter sortField sortOrder : String) (init : List Doc) :
    (∀ e, (count st b filters).err = some e → (count st b filters).count = 0) ∧
    ((list st b filters limit startAfter sortField sortOrder init).err ≠ none →
      (list st b filters limit startAfter sortField sortOrder init).token
        = "") ∧
    ((list st b filters limit startAfter sortField sortOrder init).sentQuery
        = none →
      (list st b filters limit startAfter sortField sortOrder init).results
        = init) ∧
    (∀ q, (list st b filters limit startAfter sortField sortOrder
        init).sentQuery = some q →
      (list st b filters limit startAfter sortField sortOrder init).results
        = init ++ processedDocs (st.runQuery q)) := by
  refine ⟨count_zero_on_err st b filters, ?_, ?_, ?_⟩
  all_goals
    rcases list_spec st b filters limit startAfter sortField sortOrder init
      with ⟨e, hl⟩ | ⟨q4, hsq, hql, hout⟩
  · intro _
    simp [hl]
  · rcases hout with ⟨e, hl⟩ | hl
    · intro _
      simp [hl]
    · intro herr
      rw [hl] at herr
      simp at herr
  · intro _
    simp [hl]
  · intro hnone
    rw [hsq] at hnone
    cases hnone
  · intro q hq
    rw [hl] at hq
    simp at hq
  · intro q hq
    rw [hsq] at hq
    have hq2 : q4 = q := Option.some.inj hq
    rw [← hq2]
    rcases hout with ⟨e, hl⟩ | hl <;> simp [hl]

/-- Witness for C8 (amended): on the failing stream, Count returns zero
with the error, and List returns an empty token while the caller slice
holds the one document processed before the failure. -/
theorem C8_error_outcomes_witness :
    (count stC8 bW []).count = 0 ∧
    (list stC8 bW [] 0 ("") ("") ("") []).token = ("") ∧
    (list stC8 bW [] 0 ("") ("") ("") []).results
      = [] ++ processedDocs (stC8.runQuery
          ⟨"tasks", [(("deleted"), ("=="), Value.boolV false)],
            none, none, none⟩) :=
  ⟨(C8_error_outcomes stC8 bW [] 0 ("") ("") ("") []).1
      (GoErr.msg ("io")) (by decide),
   (C8_error_outcomes stC8 bW [] 0 ("") ("") ("") []).2.1 (by decide),
   (C8_error_outcomes stC8 bW [] 0 ("") ("") ("") []).2.2.2
      ⟨"tasks", [(("deleted"), ("=="), Value.boolV false)],
        none, none, none⟩ (by decide)⟩

end Firegorm
